import Mathlib

/-!
# lldb-mix sample programs: `sample_basic.c` and `sample_branch.c`

A shallow embedding of the two debugger sample targets and the properties
their specification states about them.

Modelling conventions.

* A C `int` is a mathematical integer in `[INT_MIN, INT_MAX]` (32 bits, two's
  complement).  The additive operators wrap modulo `2^32` (`wrapInt`), which is
  what the target hardware does on signed overflow; `&` acts on the 32-bit
  two's-complement bit patterns (`andInt`).
* `argv` is a nullable pointer to an array of nullable strings:
  `Option (List (Option String))`.  The array's terminating null pointer is
  implicit, so reading `argv[0]` of an empty list yields null.
* Standard output is the string of characters written; `printf("%s %d\n", s, d)`
  is `printf_s_d s d`.
* `volatile` has no effect on the values computed.
-/

namespace LldbMix

/-! ## Machine integers -/

/-- Smallest value of a 32-bit `int`. -/
def INT_MIN : Int := -2147483648

/-- Largest value of a 32-bit `int`. -/
def INT_MAX : Int := 2147483647

/-- The value `x` is representable as a 32-bit `int`. -/
def InInt (x : Int) : Prop := INT_MIN ≤ x ∧ x ≤ INT_MAX

instance (x : Int) : Decidable (InInt x) := by
  unfold InInt
  infer_instance

/-- Reduction of a mathematical integer to the 32-bit two's-complement value
congruent to it modulo `2^32`. -/
def wrapInt (x : Int) : Int := (x + 2147483648) % 4294967296 - 2147483648

/-- The 32-bit pattern of an `int`, read as an unsigned number. -/
def toBits (x : Int) : Nat := (x % 4294967296).toNat

/-- The C operator `a & b` on `int` operands. -/
def andInt (a b : Int) : Int := wrapInt (Int.ofNat (Nat.land (toBits a) (toBits b)))

/-! ## The C library and runtime pieces the programs use -/

/-- The conversion `%d`: a minus sign for a negative value, then the decimal
digits of the magnitude. -/
def fmtDec : Int → String
  | Int.ofNat m => Nat.repr m
  | Int.negSucc m => "-" ++ Nat.repr (m + 1)

/-- The characters written by `printf("%s %d\n", s, d)`. -/
def printf_s_d (s : String) (d : Int) : String := s ++ " " ++ fmtDec d ++ "\n"

/-- The argument vector `char **argv`. -/
abbrev Argv := Option (List (Option String))

/-- The condition `argv && argv[0]`. -/
def argvGuard : Argv → Bool
  | some (some _ :: _) => true
  | _ => false

/-- What one run of a program shows to its environment: the characters written
to standard output and the value returned from `main`. -/
structure Exec where
  /-- Characters written to standard output. -/
  stdout : String
  /-- Value returned from `main`. -/
  status : Int
deriving DecidableEq

/-- Number of newline characters in a string. -/
def newlines (s : String) : Nat := s.data.count '\n'

/-! ## Program A: `sample_basic.c` -/

namespace SampleBasic

/-- `static const char *kGreeting`. -/
def kGreeting : String := "hello"

/-- `static int add_values(int a, int b)`. -/
def add_values (a b : Int) : Int := wrapInt (a + b)

/-- The local `total` of `main`. -/
def total (argc : Int) : Int := add_values argc 2

/-- `int main(int argc, char **argv)`. -/
def main (argc : Int) (argv : Argv) : Exec :=
  ⟨if argvGuard argv then printf_s_d kGreeting (total argc) else "",
   if total argc = 0 then 1 else 0⟩

end SampleBasic

/-! ## Program B: `sample_branch.c` -/

namespace SampleBranch

/-- `static const char *kYes`. -/
def kYes : String := "branch-taken"

/-- `static const char *kNo`. -/
def kNo : String := "branch-not-taken"

/-- `static int compute(int value)`. -/
def compute (value : Int) : Int :=
  if andInt value 1 ≠ 0 then wrapInt (value + 7) else wrapInt (value - 3)

/-- The local `out` of `main` (`input` is a copy of `argc`). -/
def out (argc : Int) : Int :=
  let input := argc
  compute input

/-- The local `msg` of `main`. -/
def msg (argc : Int) : String := if out argc > 3 then kYes else kNo

/-- `int main(int argc, char **argv)`. -/
def main (argc : Int) (argv : Argv) : Exec :=
  ⟨if argvGuard argv then printf_s_d (msg argc) (out argc) else "",
   if out argc = 0 then 1 else 0⟩

end SampleBranch

/-! ## Auxiliary lemmas -/

theorem wrapInt_of_inInt {x : Int} (h : InInt x) : wrapInt x = x := by
  unfold InInt INT_MIN INT_MAX at h
  unfold wrapInt
  omega

theorem inInt_wrapInt (x : Int) : InInt (wrapInt x) := by
  unfold InInt INT_MIN INT_MAX wrapInt
  omega

theorem andInt_one (v : Int) : andInt v 1 = v % 2 := by
  unfold andInt toBits wrapInt
  have h1 : ((1 : Int) % 4294967296).toNat = 1 := by decide
  rw [h1]
  show (Int.ofNat ((v % 4294967296).toNat &&& 1) + 2147483648) % 4294967296 - 2147483648 = v % 2
  rw [Nat.and_one_is_mod]
  simp only [Int.ofNat_eq_coe]
  omega

theorem compute_odd {v : Int} (h : v % 2 = 1) : SampleBranch.compute v = wrapInt (v + 7) := by
  unfold SampleBranch.compute
  rw [andInt_one, h]
  simp

theorem compute_even {v : Int} (h : v % 2 = 0) : SampleBranch.compute v = wrapInt (v - 3) := by
  unfold SampleBranch.compute
  rw [andInt_one, h]
  simp

theorem kYes_ne_kNo : SampleBranch.kYes ≠ SampleBranch.kNo := by decide

theorem digitChar_ne_newline : ∀ n < 10, Nat.digitChar n ≠ '\n' := by decide

theorem toDigitsCore_ne_newline (fuel : Nat) : ∀ (n : Nat) (acc : List Char),
    (∀ c ∈ acc, c ≠ '\n') → ∀ c ∈ Nat.toDigitsCore 10 fuel n acc, c ≠ '\n' := by
  induction fuel with
  | zero =>
    intro n acc hacc
    simpa [Nat.toDigitsCore] using hacc
  | succ k ih =>
    intro n acc hacc
    have hcons : ∀ c ∈ Nat.digitChar (n % 10) :: acc, c ≠ '\n' := by
      intro c hc
      rcases List.mem_cons.mp hc with rfl | hc
      · exact digitChar_ne_newline _ (Nat.mod_lt _ (by decide))
      · exact hacc c hc
    simp only [Nat.toDigitsCore]
    split
    · exact hcons
    · exact ih _ _ hcons

theorem count_newline_repr (n : Nat) : (Nat.repr n).data.count '\n' = 0 := by
  apply List.count_eq_zero.mpr
  intro hmem
  exact toDigitsCore_ne_newline _ _ [] (by simp) _ hmem rfl

theorem newlines_fmtDec (d : Int) : newlines (fmtDec d) = 0 := by
  unfold newlines
  cases d with
  | ofNat m => exact count_newline_repr m
  | negSucc m =>
    show ("-" ++ Nat.repr (m + 1)).data.count '\n' = 0
    rw [String.data_append, List.count_append, count_newline_repr]
    decide

theorem newlines_printf (s : String) (d : Int) :
    newlines (printf_s_d s d) = newlines s + 1 := by
  unfold printf_s_d
  have hd := newlines_fmtDec d
  unfold newlines at *
  simp only [String.data_append, List.count_append, hd]
  have h1 : List.count '\n' " ".data = 0 := by decide
  have h2 : List.count '\n' "\n".data = 1 := by decide
  rw [h1, h2]

theorem out_of_representable (argc : Int)
    (hr : InInt (if Odd argc then argc + 7 else argc - 3)) :
    SampleBranch.out argc = if Odd argc then argc + 7 else argc - 3 := by
  unfold SampleBranch.out
  by_cases ho : Odd argc
  · rw [if_pos ho] at hr ⊢
    rw [compute_odd (Int.odd_iff.mp ho), wrapInt_of_inInt hr]
  · rw [if_neg ho] at hr ⊢
    rw [compute_even (Int.even_iff.mp (Int.not_odd_iff_even.mp ho)), wrapInt_of_inInt hr]

theorem out_eq_zero_iff (argc : Int) (h : InInt argc) :
    SampleBranch.out argc = 0 ↔ argc = -7 := by
  unfold SampleBranch.out
  unfold InInt INT_MIN INT_MAX at h
  rcases Int.emod_two_eq_zero_or_one argc with he | ho
  · rw [compute_even he]
    unfold wrapInt
    omega
  · rw [compute_odd ho]
    unfold wrapInt
    omega

theorem msg_cases (argc : Int) :
    SampleBranch.msg argc = SampleBranch.kYes ∨ SampleBranch.msg argc = SampleBranch.kNo := by
  unfold SampleBranch.msg
  by_cases h : SampleBranch.out argc > 3
  · exact Or.inl (if_pos h)
  · exact Or.inr (if_neg h)

/-! ## The claims -/

/-- Claim C1, refuted as stated: at `argc = INT_MAX`, an odd `int`, the sum
`argc + 7` is not representable; `out` is `-2147483642`, not `argc + 7`. -/
theorem c1_out_int_max_counterexample :
    InInt 2147483647 ∧ Odd (2147483647 : Int) ∧
      SampleBranch.out 2147483647 = -2147483642 ∧
      SampleBranch.out 2147483647 ≠ 2147483647 + 7 := by
  refine ⟨by decide, by decide, by decide, by decide⟩

/-- Claim C1, amended: for every `argc` for which the mathematical result
(`argc + 7` for odd `argc`, `argc - 3` for even `argc`) is representable as an
`int`, `out = compute(argc)` equals that result.  Oddness is the mathematical
one, also for negative `argc`, although the code tests it with `value & 1`. -/
theorem c1_out_parity (argc : Int)
    (hr : InInt (if Odd argc then argc + 7 else argc - 3)) :
    SampleBranch.out argc = SampleBranch.compute argc ∧
      SampleBranch.out argc = if Odd argc then argc + 7 else argc - 3 :=
  ⟨rfl, out_of_representable argc hr⟩

/-- Claim C1, amended, at the negative odd count `argc = -7`, where `out` is `0`. -/
theorem c1_out_parity_witness :
    InInt (if Odd (-7 : Int) then -7 + 7 else -7 - 3) ∧
      (SampleBranch.out (-7) = SampleBranch.compute (-7) ∧
        SampleBranch.out (-7) = if Odd (-7 : Int) then -7 + 7 else -7 - 3) :=
  ⟨by decide, c1_out_parity (-7) (by decide)⟩

/-- Claim C2: in Program B the message is `"branch-taken"` exactly when
`out > 3` and `"branch-not-taken"` exactly when not; it is always one of these
two distinct constants. -/
theorem c2_msg_iff_out_gt_three (argc : Int) :
    (SampleBranch.msg argc = "branch-taken" ↔ SampleBranch.out argc > 3) ∧
      (SampleBranch.msg argc = "branch-not-taken" ↔ ¬ SampleBranch.out argc > 3) ∧
      (SampleBranch.msg argc = "branch-taken" ∨ SampleBranch.msg argc = "branch-not-taken") := by
  unfold SampleBranch.msg
  by_cases h : SampleBranch.out argc > 3
  · simp only [if_pos h]
    refine ⟨?_, ?_, ?_⟩
    · exact ⟨fun _ => h, fun _ => rfl⟩
    · exact ⟨fun e => absurd e kYes_ne_kNo, fun n => absurd h n⟩
    · exact Or.inl rfl
  · simp only [if_neg h]
    refine ⟨?_, ?_, ?_⟩
    · exact ⟨fun e => absurd e.symm kYes_ne_kNo, fun p => absurd p h⟩
    · exact ⟨fun _ => h, fun _ => rfl⟩
    · exact Or.inr rfl

/-- Claim C3, refuted as stated: at `argc = INT_MAX`, which is at least 1, the
sum `argc + 2` is not representable; `total` is `-2147483647`, not `argc + 2`. -/
theorem c3_total_int_max_counterexample :
    InInt 2147483647 ∧ (1 : Int) ≤ 2147483647 ∧
      SampleBasic.total 2147483647 = -2147483647 ∧
      SampleBasic.total 2147483647 ≠ 2147483647 + 2 := by
  refine ⟨by decide, by decide, by decide, by decide⟩

/-- Claim C3, amended: for every `argc` with `1 ≤ argc ≤ INT_MAX - 2`, Program A
has `total = argc + 2`, the line printed when the first argument is present is
`"hello "` followed by that same total in decimal and a newline, and the exit
status is 0 whatever `argv` is. -/
theorem c3_basic_total (argc : Int) (h1 : 1 ≤ argc) (h2 : argc ≤ INT_MAX - 2) :
    SampleBasic.total argc = argc + 2 ∧
      (∀ (s : String) (rest : List (Option String)),
        SampleBasic.main argc (some (some s :: rest))
          = ⟨"hello " ++ fmtDec (SampleBasic.total argc) ++ "\n", 0⟩) ∧
      (∀ argv : Argv, (SampleBasic.main argc argv).status = 0) := by
  have ht : SampleBasic.total argc = argc + 2 := by
    unfold SampleBasic.total SampleBasic.add_values
    apply wrapInt_of_inInt
    unfold InInt
    unfold INT_MAX at h2
    unfold INT_MIN INT_MAX
    omega
  have hz : ¬ SampleBasic.total argc = 0 := by
    rw [ht]
    omega
  refine ⟨ht, ?_, ?_⟩
  · intro s rest
    simp only [SampleBasic.main, argvGuard, if_true, if_neg hz, printf_s_d,
      SampleBasic.kGreeting]
    rfl
  · intro argv
    simp only [SampleBasic.main, if_neg hz]

/-- Claim C3, amended, at `argc = 1` (Scenario 1): `total` is 3, the program
prints `"hello 3"` and exits 0. -/
theorem c3_basic_total_witness :
    (1 : Int) ≤ 1 ∧ (1 : Int) ≤ INT_MAX - 2 ∧ SampleBasic.total 1 = 1 + 2 ∧
      SampleBasic.main 1 (some [some "sample_basic"]) = ⟨"hello 3\n", 0⟩ :=
  ⟨by decide, by decide, (c3_basic_total 1 (by decide) (by decide)).1,
    (c3_basic_total 1 (by decide) (by decide)).2.1 "sample_basic" []⟩

/-- Claim C4: in both programs the exit status is 1 if the computed value
(`total`, `out`) is exactly 0 and 0 otherwise, for every `argc` and every
`argv`; it is never another value, and it is the same for any two argument
vectors, so it does not depend on whether a line was printed. -/
theorem c4_status_of_value (argc : Int) (argv argv2 : Argv) :
    (SampleBasic.main argc argv).status = (if SampleBasic.total argc = 0 then 1 else 0) ∧
      (SampleBranch.main argc argv).status = (if SampleBranch.out argc = 0 then 1 else 0) ∧
      ((SampleBasic.main argc argv).status = 0 ∨ (SampleBasic.main argc argv).status = 1) ∧
      ((SampleBranch.main argc argv).status = 0 ∨ (SampleBranch.main argc argv).status = 1) ∧
      (SampleBasic.main argc argv).status = (SampleBasic.main argc argv2).status ∧
      (SampleBranch.main argc argv).status = (SampleBranch.main argc argv2).status := by
  simp only [SampleBasic.main, SampleBranch.main, and_true, true_and]
  constructor
  · by_cases h : SampleBasic.total argc = 0
    · exact Or.inr (if_pos h)
    · exact Or.inl (if_neg h)
  · by_cases h : SampleBranch.out argc = 0
    · exact Or.inr (if_pos h)
    · exact Or.inl (if_neg h)

/-- Claim C5: for every `argc`, when `argv` is present and its first element is
a string, Program B writes exactly the message, one space, `out` in signed
decimal and a newline, which is a single line (one newline character); when
`argv` is null, or its first element is null (or missing), it writes nothing. -/
theorem c5_branch_output (argc : Int) (s : String) (rest : List (Option String)) :
    (SampleBranch.main argc (some (some s :: rest))).stdout
        = SampleBranch.msg argc ++ " " ++ fmtDec (SampleBranch.out argc) ++ "\n" ∧
      newlines (SampleBranch.main argc (some (some s :: rest))).stdout = 1 ∧
      (SampleBranch.main argc none).stdout = "" ∧
      (SampleBranch.main argc (some (none :: rest))).stdout = "" ∧
      (SampleBranch.main argc (some [])).stdout = "" := by
  simp only [SampleBranch.main, argvGuard, if_true, true_and, newlines_printf]
  refine ⟨rfl, ?_, ?_⟩
  · rcases msg_cases argc with h | h
    · rw [h]
      decide
    · rw [h]
      decide
  · simp

/-- Claim C6: Program A with the synthetic count `argc = -2` has `total = 0`,
exits with status 1 whatever `argv` is, and with a non-null first argument
still prints the line `"hello 0"`. -/
theorem c6_basic_minus_two (s : String) (rest : List (Option String)) (argv : Argv) :
    SampleBasic.total (-2) = 0 ∧
      (SampleBasic.main (-2) argv).status = 1 ∧
      SampleBasic.main (-2) (some (some s :: rest)) = ⟨"hello 0\n", 1⟩ := by
  have ht : SampleBasic.total (-2) = 0 := by decide
  simp only [SampleBasic.main, argvGuard, ht, if_true, true_and]
  decide

/-- Claim C7, refuted as stated: at `argc = INT_MAX`, which is at least 1, the
addition overflows and `total` is `-2147483647`, which is below 3. -/
theorem c7_total_int_max_counterexample :
    InInt 2147483647 ∧ (1 : Int) ≤ 2147483647 ∧
      SampleBasic.total 2147483647 = -2147483647 ∧
      ¬ (3 ≤ SampleBasic.total 2147483647) := by
  refine ⟨by decide, by decide, by decide, by decide⟩

/-- Claim C7, amended: for every `int` count `argc ≥ 1`, Program A's `total` is
at least 3 whenever `argc ≤ INT_MAX - 2` (so that `argc + 2` is representable),
and in every case `total` is not 0, so the failure path (exit status 1) is
unreachable. -/
theorem c7_total_ge_three (argc : Int) (h1 : 1 ≤ argc) (h2 : argc ≤ INT_MAX) :
    (argc ≤ INT_MAX - 2 → 3 ≤ SampleBasic.total argc) ∧
      SampleBasic.total argc ≠ 0 ∧
      (∀ argv : Argv, (SampleBasic.main argc argv).status ≠ 1 ∧
        (SampleBasic.main argc argv).status = 0) := by
  unfold INT_MAX at h2
  have hz : SampleBasic.total argc ≠ 0 := by
    unfold SampleBasic.total SampleBasic.add_values wrapInt
    omega
  refine ⟨?_, hz, ?_⟩
  · intro h3
    unfold INT_MAX at h3
    unfold SampleBasic.total SampleBasic.add_values wrapInt
    omega
  · intro argv
    simp only [SampleBasic.main, if_neg hz]
    decide

/-- Claim C7, amended, at the minimal real count `argc = 1`: `total` is at
least 3 and the exit status is 0. -/
theorem c7_total_ge_three_witness :
    (1 : Int) ≤ 1 ∧ (1 : Int) ≤ INT_MAX ∧ 3 ≤ SampleBasic.total 1 ∧
      (SampleBasic.main 1 none).status = 0 :=
  ⟨by decide, by decide, (c7_total_ge_three 1 (by decide) (by decide)).1 (by decide),
    ((c7_total_ge_three 1 (by decide) (by decide)).2.2 none).2⟩

/-- Claim C8: Program B on the specification's edge cases.  `argc = 1` prints
`"branch-taken 8"` and exits 0; `argc = 3` gives `out = 10`, `"branch-taken"`,
exit 0; `argc = 4` prints `"branch-not-taken 1"` and exits 0; `argc = 0` gives
`out = -3`, `"branch-not-taken"`, exit 0; `argc = -7` gives `out = 0` and
exit 1. -/
theorem c8_branch_edge_cases (s : String) (rest : List (Option String)) :
    SampleBranch.main 1 (some (some s :: rest)) = ⟨"branch-taken 8\n", 0⟩ ∧
      (SampleBranch.out 3 = 10 ∧
        SampleBranch.main 3 (some (some s :: rest)) = ⟨"branch-taken 10\n", 0⟩) ∧
      SampleBranch.main 4 (some (some s :: rest)) = ⟨"branch-not-taken 1\n", 0⟩ ∧
      (SampleBranch.out 0 = -3 ∧
        SampleBranch.main 0 (some (some s :: rest)) = ⟨"branch-not-taken -3\n", 0⟩) ∧
      (SampleBranch.out (-7) = 0 ∧
        SampleBranch.main (-7) (some (some s :: rest)) = ⟨"branch-not-taken 0\n", 1⟩ ∧
        (SampleBranch.main (-7) none).status = 1) := by
  have e1 : SampleBranch.main 1 (some (some s :: rest)) = SampleBranch.main 1 (some [some ""]) := by
    simp only [SampleBranch.main, argvGuard]
  have e3 : SampleBranch.main 3 (some (some s :: rest)) = SampleBranch.main 3 (some [some ""]) := by
    simp only [SampleBranch.main, argvGuard]
  have e4 : SampleBranch.main 4 (some (some s :: rest)) = SampleBranch.main 4 (some [some ""]) := by
    simp only [SampleBranch.main, argvGuard]
  have e0 : SampleBranch.main 0 (some (some s :: rest)) = SampleBranch.main 0 (some [some ""]) := by
    simp only [SampleBranch.main, argvGuard]
  have e7 : SampleBranch.main (-7) (some (some s :: rest))
      = SampleBranch.main (-7) (some [some ""]) := by
    simp only [SampleBranch.main, argvGuard]
  rw [e1, e3, e4, e0, e7]
  decide

/-- Claim C9: for every `int` count `argc`, Program B exits with status 1 if
and only if `argc = -7`.  The even branch `argc - 3` never yields 0, and for
every `argc ≥ 1` the exit status is 0. -/
theorem c9_branch_status_one_iff (argc : Int) (h : InInt argc) :
    (∀ argv : Argv, (SampleBranch.main argc argv).status = 1 ↔ argc = -7) ∧
      (Even argc → SampleBranch.out argc ≠ 0) ∧
      (1 ≤ argc → ∀ argv : Argv, (SampleBranch.main argc argv).status = 0) := by
  have hz := out_eq_zero_iff argc h
  refine ⟨?_, ?_, ?_⟩
  · intro argv
    simp only [SampleBranch.main]
    by_cases h0 : SampleBranch.out argc = 0
    · simp only [if_pos h0, true_iff]
      exact hz.mp h0
    · simp only [if_neg h0]
      constructor
      · intro hc
        exact absurd hc (by decide)
      · intro hc
        exact absurd (hz.mpr hc) h0
  · intro he h0
    have h7 := hz.mp h0
    rw [h7] at he
    exact absurd he (by decide)
  · intro h1 argv
    have h0 : ¬ SampleBranch.out argc = 0 := by
      intro hc
      have h7 := hz.mp hc
      omega
    simp only [SampleBranch.main, if_neg h0]

/-- Claim C9 at `argc = -7`, the one count with exit status 1. -/
theorem c9_branch_status_one_iff_witness :
    InInt (-7) ∧ (SampleBranch.main (-7) none).status = 1 :=
  ⟨by decide, ((c9_branch_status_one_iff (-7) (by decide)).1 none).mpr rfl⟩

/-- Claim C10, refuted as stated: `argc = INT_MAX` is odd and at least `-3`,
yet `argc + 7` overflows to `-2147483642` and the message is
`"branch-not-taken"`; `argc = INT_MIN` is even and below 8, yet `argc - 3`
overflows to `2147483645` and the message is `"branch-taken"`. -/
theorem c10_msg_overflow_counterexample :
    (InInt 2147483647 ∧ (1 : Int) ≤ 2147483647 ∧
        (Odd (2147483647 : Int) ∧ (-3 : Int) ≤ 2147483647) ∧
        SampleBranch.msg 2147483647 = "branch-not-taken" ∧
        SampleBranch.msg 2147483647 ≠ "branch-taken" ∧
        (2147483647 : Int) ≠ 2 ∧ (2147483647 : Int) ≠ 4 ∧ (2147483647 : Int) ≠ 6) ∧
      (InInt (-2147483648) ∧
        ¬ ((Odd (-2147483648 : Int) ∧ (-3 : Int) ≤ -2147483648) ∨
            (Even (-2147483648 : Int) ∧ (8 : Int) ≤ -2147483648)) ∧
        SampleBranch.msg (-2147483648) = "branch-taken") := by
  decide

/-- Claim C10, amended: for every `argc` for which the result of `compute`
(`argc + 7` for odd `argc`, `argc - 3` for even `argc`) is representable as an
`int`, the message is `"branch-taken"` if and only if `argc` is odd and at
least `-3`, or even and at least 8; consequently, among such `argc ≥ 1`, the
message is `"branch-not-taken"` exactly for `argc` in `{2, 4, 6}`. -/
theorem c10_msg_closed_form (argc : Int)
    (hr : InInt (if Odd argc then argc + 7 else argc - 3)) :
    (SampleBranch.msg argc = "branch-taken" ↔
        (Odd argc ∧ -3 ≤ argc) ∨ (Even argc ∧ 8 ≤ argc)) ∧
      (1 ≤ argc →
        (SampleBranch.msg argc = "branch-not-taken" ↔ argc = 2 ∨ argc = 4 ∨ argc = 6)) := by
  have hout := out_of_representable argc hr
  have hyes : SampleBranch.msg argc = "branch-taken" ↔ SampleBranch.out argc > 3 := by
    unfold SampleBranch.msg
    by_cases h : SampleBranch.out argc > 3
    · simp only [if_pos h, h, iff_true]
      rfl
    · simp only [if_neg h, h, iff_false]
      exact fun e => kYes_ne_kNo e.symm
  have hno : SampleBranch.msg argc = "branch-not-taken" ↔ ¬ SampleBranch.out argc > 3 := by
    unfold SampleBranch.msg
    by_cases h : SampleBranch.out argc > 3
    · simp only [if_pos h, h, not_true_eq_false, iff_false]
      exact kYes_ne_kNo
    · simp only [if_neg h, h, not_false_eq_true, iff_true]
      rfl
  rw [hyes, hno]
  by_cases ho : Odd argc
  · have hm := Int.odd_iff.mp ho
    have hne : ¬ Even argc := Int.not_even_iff_odd.mpr ho
    rw [if_pos ho] at hout
    rw [hout]
    simp only [ho, hne, true_and, false_and, or_false]
    constructor
    · constructor <;> intro h <;> omega
    · intro h1
      constructor <;> intro h <;> omega
  · have he : Even argc := Int.not_odd_iff_even.mp ho
    have hm := Int.even_iff.mp he
    rw [if_neg ho] at hout
    rw [hout]
    simp only [ho, he, true_and, false_and, false_or]
    constructor
    · constructor <;> intro h <;> omega
    · intro h1
      constructor <;> intro h <;> omega

/-- Claim C10, amended, at `argc = 4`: the result `1` is representable, the
count is even and below 8, and the message is `"branch-not-taken"`. -/
theorem c10_msg_closed_form_witness :
    InInt (if Odd (4 : Int) then 4 + 7 else 4 - 3) ∧ (1 : Int) ≤ 4 ∧
      SampleBranch.msg 4 = "branch-not-taken" :=
  ⟨by decide, by decide,
    ((c10_msg_closed_form 4 (by decide)).2 (by decide)).mpr (Or.inr (Or.inl rfl))⟩

end LldbMix
